import Mathlib

/-!
Shallow embedding of the go_ng_news_scraper crawl–extract–change-detect–persist
pipeline. Go strings are modelled as `List Char`; Go's `strings` operations used
by the source (`Split`, `TrimSuffix`, `ReplaceAll`, `Title`) are reimplemented
here with Go's semantics.
-/

/-- Go string model: a list of characters. -/
abbrev GoStr := List Char

namespace GoStrings

/-- Fuel-driven worker for `split`; `fuel ≥ s.length` makes it total on `s`. -/
def splitFuel (sc : Char) (srest : GoStr) : Nat → GoStr → List GoStr
  | _, [] => [[]]
  | 0, s => [s]
  | fuel + 1, c :: rest =>
    if (sc :: srest).isPrefixOf (c :: rest) then
      [] :: splitFuel sc srest fuel (rest.drop srest.length)
    else
      match splitFuel sc srest fuel rest with
      | [] => [[c]]
      | p :: ps => (c :: p) :: ps

/-- Go `strings.Split(s, sep)` for a non-empty separator `sc :: srest`:
splits `s` around each non-overlapping instance of the separator, left to right. -/
def split (sc : Char) (srest : GoStr) (s : GoStr) : List GoStr :=
  splitFuel sc srest s.length s

/-- Fuel-driven worker for `countSep`. -/
def countSepFuel (sc : Char) (srest : GoStr) : Nat → GoStr → Nat
  | _, [] => 0
  | 0, _ => 0
  | fuel + 1, c :: rest =>
    if (sc :: srest).isPrefixOf (c :: rest) then
      countSepFuel sc srest fuel (rest.drop srest.length) + 1
    else
      countSepFuel sc srest fuel rest

/-- Number of non-overlapping occurrences of the separator in `s`,
counted left to right (the count Go's `strings.Count` gives). -/
def countSep (sc : Char) (srest : GoStr) (s : GoStr) : Nat :=
  countSepFuel sc srest s.length s

/-- Go `strings.TrimSuffix(s, suffix)`: removes one trailing copy of `suffix`
when present, otherwise returns `s` unchanged. -/
def trimSuffix (s suffix : GoStr) : GoStr :=
  if suffix.isSuffixOf s then s.take (s.length - suffix.length) else s

/-- Go `strings.ReplaceAll(s, old, new)` for a one-character `old` and
one-character replacement, as used by the source (`"-"` → `" "`). -/
def replaceAll (s : GoStr) (old new : Char) : GoStr :=
  s.map (fun c => if c = old then new else c)

/-- Go `strings.isSeparator`, restricted to the ASCII range the scraped slugs
live in: ASCII alphanumerics and underscore are not separators, every other
ASCII character is. -/
def isSeparator (c : Char) : Bool :=
  !(('0' ≤ c && c ≤ '9') || ('a' ≤ c && c ≤ 'z') || ('A' ≤ c && c ≤ 'Z') || c == '_')

/-- Worker for `goTitle`: maps each character, upper-casing it when the
previous character was a separator. -/
def titleMap (prev : Char) : GoStr → GoStr
  | [] => []
  | c :: rest => (if isSeparator prev then c.toUpper else c) :: titleMap c rest

/-- Go `strings.Title(s)` (ASCII): title-cases the first character of each
word; the initial previous-character is a space, hence a separator. -/
def goTitle (s : GoStr) : GoStr := titleMap ' ' s

/-- Go `strings.Join(parts, sep)`. -/
def joinSep (sep : GoStr) : List GoStr → GoStr
  | [] => []
  | [x] => x
  | x :: xs => x ++ sep ++ joinSep sep xs

end GoStrings

namespace Scraper

open GoStrings

/-! ### Article data model (article_scraper.go) -/

/-- The `Article` struct of the article scraper. Timestamps are modelled as
naturals; the zero value stands for Go's zero `time.Time`. -/
structure Article where
  ID : Nat
  Title : GoStr
  Categories : List GoStr
  Author : GoStr
  PublishDate : Nat
  UpdatedDate : Nat
  Content : GoStr
  URL : GoStr
  CategoryIDs : List Nat
  CategorySlugs : List GoStr
  ContentHash : GoStr
  deriving Repr, DecidableEq

/-- Model of `sameCategories(a, b)`: false when the lengths differ; otherwise every
element of `b` must occur in `a` (the Go code materialises `a` as a `seen`
set and checks membership of each element of `b`). -/
def sameCategories (a b : List GoStr) : Bool :=
  a.length == b.length && b.all (fun cat => a.contains cat)

/-- Model of `hasChanged(existing, new)`: true when the title, author or content hash
differs, or when `sameCategories` rejects the slug lists. -/
def hasChanged (existing cand : Article) : Bool :=
  existing.Title != cand.Title ||
  existing.Author != cand.Author ||
  existing.ContentHash != cand.ContentHash ||
  !sameCategories existing.CategorySlugs cand.CategorySlugs

/-! ### Category scraping (category_scraper.go) -/

/-- One row of the `go_categories` table. -/
structure CategoryRow where
  id : Nat
  websiteID : Nat
  name : GoStr
  slug : GoStr
  url : GoStr
  parentID : Option Nat
  deriving Repr, DecidableEq

/-- The query `SELECT id FROM go_categories WHERE website_id = $1 AND slug = $2`:
the id of the first matching row, if any (`sql.ErrNoRows` ↦ `none`). -/
def lookupCategoryID (cats : List CategoryRow) (websiteID : Nat) (slug : GoStr) :
    Option Nat :=
  (cats.find? (fun c => c.websiteID == websiteID && c.slug == slug)).map (·.id)

/-- Model of `findParentID(tx, currentSlug)`: split the slug on `/`; a single part means
no parent (0); otherwise the parent slug is the join of all but the last part,
looked up by `(websiteID, parentSlug)`; a missing row (`sql.ErrNoRows`) also
yields 0 and no error. -/
def findParentID (cats : List CategoryRow) (websiteID : Nat) (currentSlug : GoStr) :
    Nat :=
  let parts := split '/' [] currentSlug
  if parts.length = 1 then 0
  else
    let parentSlug := joinSep ['/'] parts.dropLast
    match lookupCategoryID cats websiteID parentSlug with
    | none => 0
    | some pid => pid

/-- The truncation `url[:len(url)-1]` when the last byte is `'/'`, as in `extractCategoryInfo`
(applied there only after the unchecked index `url[len(url)-1]`). -/
def stripTrailingSlash (url : GoStr) : GoStr :=
  if url.getLast? = some '/' then url.dropLast else url

/-- The `"category/"` marker's tail: `split` takes the separator as head+tail. -/
def markerRest : GoStr := "ategory/".data

/-- Model of `extractCategoryInfo(url)`: `none` models the index-out-of-range panic on
the empty string (`url[len(url)-1]` with `len(url) = 0`). Otherwise: strip one
trailing slash, split on `"category/"`; any part count other than 2 yields the
`("Unknown", "unknown")` fallback; otherwise the slug is the second part and
the name is `strings.Title(strings.ReplaceAll(slug, "-", " "))`. -/
def extractCategoryInfo (url : GoStr) : Option (GoStr × GoStr) :=
  match url with
  | [] => none
  | _ :: _ =>
    let stripped := stripTrailingSlash url
    let parts := split 'c' markerRest stripped
    if h : parts.length = 2 then
      let slug := parts.get ⟨1, by omega⟩
      some (goTitle (replaceAll slug '-' ' '), slug)
    else
      some ("Unknown".data, "unknown".data)

/-! ### Database state and the article save path (article_scraper.go) -/

/-- One row of the `go_articles` table. -/
structure ArticleRow where
  id : Nat
  websiteID : Nat
  title : GoStr
  content : GoStr
  contentHash : GoStr
  author : GoStr
  publishDate : Nat
  lastUpdated : Nat
  url : GoStr
  createdAt : Nat
  deriving Repr, DecidableEq

/-- The relational store the scraper writes to: articles, categories and the
`go_article_categories` many-to-many links `(article_id, category_id)`.
`nextID` models the id sequence backing inserts. -/
structure DB where
  articles : List ArticleRow
  categories : List CategoryRow
  links : List (Nat × Nat)
  nextID : Nat
  deriving Repr, DecidableEq

/-- The stored slugs of an article: `SELECT c.slug FROM go_categories c JOIN
go_article_categories ac ON c.id = ac.category_id WHERE ac.article_id = $1`. -/
def existingSlugs (db : DB) (aid : Nat) : List GoStr :=
  (db.links.filter (fun l => l.1 == aid)).filterMap
    (fun l => (db.categories.find? (fun c => c.id == l.2)).map (·.slug))

/-- Observable write effects of one `SaveArticle` call. -/
structure SaveEffects where
  upsertPerformed : Bool
  linksDeleted : Nat
  linksInserted : Nat
  skippedSlugs : List Nat
  deriving Repr, DecidableEq

/-- The no-write effect record of the early-return path. -/
def noEffects : SaveEffects :=
  { upsertPerformed := false, linksDeleted := 0, linksInserted := 0, skippedSlugs := [] }

/-- The category-link loop of `SaveArticle`. For the slug at index `i`:
`faults i = true` models a row-level database error (slug lookup or link
insert) — logged and skipped; an unresolvable slug (`sql.ErrNoRows`) is
likewise logged and skipped; otherwise the link is inserted
(`ON CONFLICT DO NOTHING`: a link already present is left alone).
Returns the updated link table, the number of links inserted, and the
indices skipped. -/
def insertLinks (cats : List CategoryRow) (cfgID articleID : Nat)
    (faults : Nat → Bool) : Nat → List GoStr → List (Nat × Nat) →
    List (Nat × Nat) × Nat × List Nat
  | _, [], links => (links, 0, [])
  | i, slug :: rest, links =>
    if faults i then
      let (links', n, sk) := insertLinks cats cfgID articleID faults (i + 1) rest links
      (links', n, i :: sk)
    else
      match lookupCategoryID cats cfgID slug with
      | none =>
        let (links', n, sk) := insertLinks cats cfgID articleID faults (i + 1) rest links
        (links', n, i :: sk)
      | some cid =>
        if (articleID, cid) ∈ links then
          insertLinks cats cfgID articleID faults (i + 1) rest links
        else
          let (links', n, sk) :=
            insertLinks cats cfgID articleID faults (i + 1) rest (links ++ [(articleID, cid)])
          (links', n + 1, sk)

/-- The article upsert: `INSERT ... ON CONFLICT (url) DO UPDATE SET title,
content, content_hash, author, publish_date, last_updated ... RETURNING id`.
A conflicting row keeps its id, website_id, url and created_at; a new row
draws a fresh id and `created_at = NOW()`. -/
def upsertArticle (cfgID now : Nat) (db : DB) (a : Article) : DB × Nat :=
  match db.articles.find? (fun r => r.url == a.URL) with
  | some row =>
    ({ db with articles := db.articles.map (fun r =>
        if r.url == a.URL then
          { r with
            title := a.Title, content := a.Content,
            contentHash := a.ContentHash, author := a.Author,
            publishDate := a.PublishDate, lastUpdated := a.UpdatedDate }
        else r) }, row.id)
  | none =>
    ({ db with
        articles := db.articles ++
          [{ id := db.nextID, websiteID := cfgID, title := a.Title,
             content := a.Content, contentHash := a.ContentHash,
             author := a.Author, publishDate := a.PublishDate,
             lastUpdated := a.UpdatedDate, url := a.URL, createdAt := now }],
        nextID := db.nextID + 1 }, db.nextID)

/-- Model of `SaveArticle`, parameterised by the content digest `hashFn` (the source
instantiates it with hex-encoded SHA-256). Control flow of the Go source:
compute the hash; read the stored row by url; when one exists and
`hasChanged` is false, return with no write at all; otherwise upsert the
article row, delete every existing link of the article id, and run the link
loop; the transaction then commits. -/
def SaveArticle (hashFn : GoStr → GoStr) (cfgID now : Nat) (faults : Nat → Bool)
    (db : DB) (a : Article) : DB × SaveEffects :=
  let a' := { a with ContentHash := hashFn a.Content }
  let proceed : DB × SaveEffects :=
    let (db1, articleID) := upsertArticle cfgID now db a'
    let deleted := (db1.links.filter (fun l => l.1 == articleID)).length
    let remaining := db1.links.filter (fun l => !(l.1 == articleID))
    let (links', inserted, skipped) :=
      insertLinks db1.categories cfgID articleID faults 0 a'.CategorySlugs remaining
    ({ db1 with links := links' },
     { upsertPerformed := true, linksDeleted := deleted,
       linksInserted := inserted, skippedSlugs := skipped })
  match db.articles.find? (fun r => r.url == a'.URL) with
  | some row =>
    let stored : Article :=
      { ID := row.id, Title := row.title, Categories := [], Author := row.author,
        PublishDate := 0, UpdatedDate := 0, Content := row.content, URL := [],
        CategoryIDs := [], CategorySlugs := existingSlugs db row.id,
        ContentHash := row.contentHash }
    if hasChanged stored a' then proceed else (db, noEffects)
  | none => proceed

/-! ### Category batch processing (category_scraper.go) -/

/-- The category upsert of `ScrapeCategories`: `ON CONFLICT (website_id, slug)
DO UPDATE SET name, url, parent_id`; the Go code passes
`sql.NullInt32{..., Valid: parentID > 0}`, so parent id 0 is stored NULL. -/
def upsertCategory (cfgID : Nat) (db : DB) (name slug url : GoStr)
    (parentID : Nat) : DB :=
  let pid : Option Nat := if parentID > 0 then some parentID else none
  if db.categories.any (fun c => c.websiteID == cfgID && c.slug == slug) then
    { db with categories := db.categories.map (fun c =>
        if c.websiteID == cfgID && c.slug == slug then
          { c with name := name, url := url, parentID := pid }
        else c) }
  else
    { db with
        categories := db.categories ++
          [{ id := db.nextID, websiteID := cfgID, name := name, slug := slug,
             url := url, parentID := pid }],
        nextID := db.nextID + 1 }

/-- The per-entry loop of `ScrapeCategories` over the sitemap's `(loc, fault)`
entries, all inside one transaction. `fault = true` models a row-level database
error (the parent lookup or the insert errors): the row is logged and skipped
and the loop continues. `none` models the crash of `extractCategoryInfo` on an
empty url; otherwise the final state is the committed transaction. -/
def scrapeCategoriesLoop (cfgID : Nat) : List (GoStr × Bool) → DB → Option DB
  | [], db => some db
  | (loc, fault) :: rest, db =>
    match extractCategoryInfo loc with
    | none => none
    | some (name, slug) =>
      if fault then scrapeCategoriesLoop cfgID rest db
      else
        let pid := findParentID db.categories cfgID slug
        scrapeCategoriesLoop cfgID rest (upsertCategory cfgID db name slug loc pid)

/-- Model of `ScrapeCategories` after the sitemap has been fetched and parsed. -/
def scrapeCategories (cfgID : Nat) (entries : List (GoStr × Bool)) (db : DB) :
    Option DB :=
  scrapeCategoriesLoop cfgID entries db

/-! ### Sitemap batch upsert (main.go of the sitemap scraper) -/

/-- One row of the `go_sitemaps` table. -/
structure SitemapRow where
  websiteID : Nat
  articleURL : GoStr
  lastMod : Option Nat
  createdAt : Nat
  isValid : Bool
  statusCode : Nat
  lastChecked : Nat
  deriving Repr, DecidableEq

/-- A sitemap `<url>` element: `loc` and the raw `lastmod` text. -/
structure URLEntry where
  loc : GoStr
  lastMod : GoStr
  deriving Repr, DecidableEq

/-- The `lastMod` pointer passed to the statement: `nil` unless the `lastmod`
text is non-empty and parses (`time.Parse(time.RFC3339, ...)`, modelled by the
parameter `parseFn`). -/
def lastModOf (parseFn : GoStr → Option Nat) (e : URLEntry) : Option Nat :=
  if e.lastMod = [] then none else parseFn e.lastMod

/-- One statement execution of `insertURLBatch`: `INSERT ... VALUES ($1, $2,
$3, NOW(), true, $4, NOW()) ON CONFLICT (website_id, article_url) DO UPDATE
SET last_checked = NOW(), status_code = $4, is_valid = true`. -/
def upsertSitemapRow (now websiteID statusCode : Nat) (lastMod : Option Nat)
    (loc : GoStr) (table : List SitemapRow) : List SitemapRow :=
  if table.any (fun r => r.websiteID == websiteID && r.articleURL == loc) then
    table.map (fun r =>
      if r.websiteID == websiteID && r.articleURL == loc then
        { r with lastChecked := now, statusCode := statusCode, isValid := true }
      else r)
  else
    table ++
      [{ websiteID := websiteID, articleURL := loc, lastMod := lastMod,
         createdAt := now, isValid := true, statusCode := statusCode,
         lastChecked := now }]

/-- Model of `insertURLBatch(tx, batch, websiteID, statusCode)`: executes the prepared
upsert once per entry, in order. -/
def insertURLBatch (parseFn : GoStr → Option Nat) (now websiteID statusCode : Nat)
    (batch : List URLEntry) (table : List SitemapRow) : List SitemapRow :=
  batch.foldl
    (fun t e => upsertSitemapRow now websiteID statusCode (lastModOf parseFn e) e.loc t)
    table

/-! ### Retrying fetcher (main.go constants and fetchWithRetry) -/

/-- The constant `maxRetries = 3` from the sitemap scraper's constants. -/
def maxRetries : Nat := 3

/-- The constant `retryDelay = 5 * time.Second`, in seconds. -/
def retryDelay : Nat := 5

/-- One observable event of `fetchWithRetry`: a `client.Get` attempt (0-based
index) or a `time.Sleep(retryDelay)`. -/
inductive FetchEvent where
  | attempt (i : Nat)
  | sleep (d : Nat)
  deriving Repr, DecidableEq

/-- Model of `fmt.Errorf("after %d attempts: %w", maxRetries, lastErr)`: the attempt
count printed into the message and the wrapped underlying error (`none` models
wrapping a nil `lastErr`, reachable only with a zero retry budget). -/
structure WrappedError (E : Type) where
  attempts : Nat
  wrapped : Option E
  deriving Repr, DecidableEq

/-- The retry loop `for i := 0; i < maxRetries; i++`, structurally recursive on
the remaining budget. Each failed attempt logs, sleeps `delay`, and retries;
a success returns `(resp, nil)` at once; exhaustion returns `(nil, wrapped)`
naming `maxR`. The event list is the observable attempt/sleep trace. -/
def fetchRetryLoop {E R : Type} (client : Nat → Except E R) (delay maxR : Nat) :
    Nat → Nat → Option E → (Option R × Option (WrappedError E)) × List FetchEvent
  | _, 0, lastErr => ((none, some ⟨maxR, lastErr⟩), [])
  | i, remaining + 1, _lastErr =>
    match client i with
    | .ok r => ((some r, none), [.attempt i])
    | .error e =>
      let rest := fetchRetryLoop client delay maxR (i + 1) remaining (some e)
      (rest.1, .attempt i :: .sleep delay :: rest.2)

/-- Model of `fetchWithRetry(client, url)`: the url is fixed, so the client is modelled
as the outcome of each attempt against it. -/
def fetchWithRetry {E R : Type} (client : Nat → Except E R) :
    (Option R × Option (WrappedError E)) × List FetchEvent :=
  fetchRetryLoop client retryDelay maxRetries 0 maxRetries none

/-- Number of attempt events in a trace. -/
def countAttempts (trace : List FetchEvent) : Nat :=
  (trace.filter (fun ev => match ev with | .attempt _ => true | _ => false)).length

/-! ### Bounded concurrency (C8): semaphore-gated sitemap fan-out and the
fixed worker pool of the article scraper -/

/-- State of the sitemap fan-out in `main`: each of the 221 goroutines is
waiting to acquire the `semaphore` channel, holding a slot while its sitemap
fetch runs, or done. -/
structure SemState where
  waiting : Nat
  active : Nat
  done : Nat
  deriving Repr, DecidableEq

/-- Steps of the semaphore-gated fan-out with capacity `K`: a waiting
goroutine acquires a slot only when fewer than `K` are held
(`semaphore <- struct{}{}` blocks otherwise); a finished fetch releases its
slot. -/
inductive SemStep (K : Nat) : SemState → SemState → Prop where
  | acquire (w a d : Nat) : a < K → SemStep K ⟨w + 1, a, d⟩ ⟨w, a + 1, d⟩
  | release (w a d : Nat) : SemStep K ⟨w, a + 1, d⟩ ⟨w, a, d + 1⟩

/-- Reachability under `SemStep`. -/
inductive SemReach (K : Nat) (init : SemState) : SemState → Prop where
  | refl : SemReach K init init
  | step {s t : SemState} : SemReach K init s → SemStep K s t → SemReach K init t

/-- Phase of one article-scraper worker: between queue reads, fetching
(`ScrapeArticle`'s HTTP GET), or persisting (`SaveArticle`). -/
inductive WorkerPhase where
  | idle
  | fetching
  | saving
  deriving Repr, DecidableEq

/-- Per-worker phase transitions: take a url from the queue and begin the
fetch; finish the fetch and begin the save; finish the save. -/
inductive PhaseStep : WorkerPhase → WorkerPhase → Prop where
  | startFetch : PhaseStep .idle .fetching
  | startSave : PhaseStep .fetching .saving
  | finishSave : PhaseStep .saving .idle

/-- Pool step: exactly one worker advances one phase. -/
inductive PoolStep : List WorkerPhase → List WorkerPhase → Prop where
  | at_ (pre post : List WorkerPhase) (ph ph' : WorkerPhase) :
      PhaseStep ph ph' → PoolStep (pre ++ ph :: post) (pre ++ ph' :: post)

/-- Reachability under `PoolStep` from the initial all-idle pool. -/
inductive PoolReach (init : List WorkerPhase) : List WorkerPhase → Prop where
  | refl : PoolReach init init
  | step {s t : List WorkerPhase} : PoolReach init s → PoolStep s t → PoolReach init t

/-- Number of workers whose fetch is in flight. -/
def countFetching (ws : List WorkerPhase) : Nat :=
  (ws.filter (fun w => w == WorkerPhase.fetching)).length

/-! ### Category-anchor extraction in ScrapeArticle (C9) -/

/-- A `div.cat-links a` anchor: display text and the optional href. -/
structure Anchor where
  text : GoStr
  href : Option GoStr
  deriving Repr, DecidableEq

/-- Tail of the `"/category/"` marker used by `ScrapeArticle`
(`strings.Split(href, "/category/")`; `split` takes head and tail). -/
def articleMarkerRest : GoStr := "category/".data

/-- The body of the `doc.Find(categorySelector).Each` callback of
`ScrapeArticle`: when the anchor has an href that splits into exactly two
parts around `"/category/"`, append the trimmed slug to the slug accumulator
and the anchor text to the name accumulator; otherwise append to neither. -/
def appendAnchor (acc : List GoStr × List GoStr) (a : Anchor) :
    List GoStr × List GoStr :=
  match a.href with
  | none => acc
  | some href =>
    let parts := GoStrings.split '/' articleMarkerRest href
    if h : parts.length = 2 then
      (acc.1 ++ [a.text], acc.2 ++ [GoStrings.trimSuffix (parts.get ⟨1, by omega⟩) ['/']])
    else acc

/-- The category-extraction loop of `ScrapeArticle`, producing
`(article.Categories, article.CategorySlugs)`. -/
def extractArticleCategories (anchors : List Anchor) : List GoStr × List GoStr :=
  anchors.foldl appendAnchor ([], [])

/-- Specification-side classifier for one anchor: the `(name, slug)` pair the
loop would append, `none` when the anchor contributes nothing. Used to state
index alignment of the two lists `extractArticleCategories` builds. -/
def classifyAnchor (a : Anchor) : Option (GoStr × GoStr) :=
  a.href.bind (fun href =>
    let parts := GoStrings.split '/' articleMarkerRest href
    if h : parts.length = 2 then
      some (a.text, GoStrings.trimSuffix (parts.get ⟨1, by omega⟩) ['/'])
    else none)

/-! ### Concrete store for the second-save scenario (C2) -/

/-- A stored article row, as left by a first successful save: url `"u"`,
title `"t"`, author `"a"`, content `"c"` whose hash (under the identity
digest) is `"c"`. -/
def resightRow : ArticleRow :=
  { id := 1, websiteID := 1, title := ['t'], content := ['c'],
    contentHash := ['c'], author := ['a'], publishDate := 0, lastUpdated := 0,
    url := ['u'], createdAt := 50 }

/-- A store holding `resightRow`, one category with slug `"x"` (id 3), and the
single link row `(1, 3)` — so the stored slug list of article 1 is `["x"]`. -/
def resightDB : DB :=
  { articles := [resightRow],
    categories := [{ id := 3, websiteID := 1, name := ['X'], slug := ['x'],
                     url := [], parentID := none }],
    links := [(1, 3)],
    nextID := 4 }

/-- A second extraction of the same article: identical title, author and
content, but the category anchors yielded the slug `"x"` twice — the same
slug set `{x}` as stored. -/
def resightArticle : Article :=
  { ID := 0, Title := ['t'], Categories := [['X'], ['X']], Author := ['a'],
    PublishDate := 0, UpdatedDate := 0, Content := ['c'], URL := ['u'],
    CategoryIDs := [], CategorySlugs := [['x'], ['x']], ContentHash := [] }

/-! ### Concrete inputs used by the counterexample and scenario theorems -/

/-- A stored article whose slug list is `["x", "y"]`. -/
def storedXY : Article :=
  { ID := 1, Title := ['t'], Categories := [], Author := ['a'],
    PublishDate := 0, UpdatedDate := 0, Content := ['c'], URL := ['u'],
    CategoryIDs := [], CategorySlugs := [['x'], ['y']], ContentHash := ['h'] }

/-- A candidate identical to `storedXY` except its slug list is `["x", "x"]`:
as a set `{x}`, which differs from the stored set `{x, y}`. -/
def candidateXX : Article :=
  { storedXY with CategorySlugs := [['x'], ['x']] }

/-- A URL containing the `category/` marker twice. -/
def doubleMarkerURL : GoStr := "https://blueprint.ng/category/a/category/b".data

/-- The stored sitemap row of the C7 scenario: url `"u0"`, `last_mod` 7,
`created_at` 50, valid, status 200, last checked at 100. -/
def sitemapRow0 : SitemapRow :=
  { websiteID := 1, articleURL := "u0".data, lastMod := some 7, createdAt := 50,
    isValid := true, statusCode := 200, lastChecked := 100 }

end Scraper

namespace GoStrings

theorem splitFuel_ne_nil (sc : Char) (srest : GoStr) (fuel : Nat) (s : GoStr) :
    splitFuel sc srest fuel s ≠ [] := by
  induction fuel generalizing s with
  | zero => cases s <;> simp [splitFuel]
  | succ n ih =>
    cases s with
    | nil => simp [splitFuel]
    | cons c rest =>
      by_cases h : (sc :: srest).isPrefixOf (c :: rest)
      · simp [splitFuel, h]
      · simp only [splitFuel, h, if_neg, Bool.false_eq_true, if_false]
        cases hs : splitFuel sc srest n rest with
        | nil => simp
        | cons p ps => simp

theorem splitFuel_length (sc : Char) (srest : GoStr) (fuel : Nat) (s : GoStr) :
    (splitFuel sc srest fuel s).length = countSepFuel sc srest fuel s + 1 := by
  induction fuel generalizing s with
  | zero => cases s <;> simp [splitFuel, countSepFuel]
  | succ n ih =>
    cases s with
    | nil => simp [splitFuel, countSepFuel]
    | cons c rest =>
      by_cases h : (sc :: srest).isPrefixOf (c :: rest)
      · simp [splitFuel, countSepFuel, h, ih]
      · simp only [splitFuel, countSepFuel, h, Bool.false_eq_true, if_false]
        cases hs : splitFuel sc srest n rest with
        | nil => exact absurd hs (splitFuel_ne_nil sc srest n rest)
        | cons p ps =>
          have := ih rest
          simp [hs] at this
          simp [this]

/-- The number of parts `split` produces is one more than the number of
occurrences of the separator. -/
theorem split_length (sc : Char) (srest : GoStr) (s : GoStr) :
    (split sc srest s).length = countSep sc srest s + 1 :=
  splitFuel_length sc srest s.length s

end GoStrings

namespace Scraper

open GoStrings

/-! ### Change detection (C1) -/

theorem sameCategories_eq_true_iff (a b : List GoStr) :
    sameCategories a b = true ↔ a.length = b.length ∧ ∀ s ∈ b, s ∈ a := by
  simp [sameCategories, List.all_eq_true, List.contains_iff_exists_mem_beq,
    beq_iff_eq]

/-- C9 helper and C1 core: `hasChanged` is false exactly when title, author and
hash agree and `sameCategories` accepts the slug lists. -/
theorem hasChanged_eq_false_iff (e c : Article) :
    hasChanged e c = false ↔
      e.Title = c.Title ∧ e.Author = c.Author ∧ e.ContentHash = c.ContentHash ∧
      sameCategories e.CategorySlugs c.CategorySlugs = true := by
  simp [hasChanged, and_assoc]

/-- C1 counterexample: with title, author and hash all equal, the slug lists
`["x","y"]` (stored) and `["x","x"]` (candidate) denote different sets — `"y"`
is in the stored set only — yet `hasChanged` returns false, so the claimed
"true iff the category-slug sets differ (set-equality)" fails. -/
theorem hasChanged_not_set_equality :
    hasChanged storedXY candidateXX = false ∧
    storedXY.Title = candidateXX.Title ∧
    storedXY.Author = candidateXX.Author ∧
    storedXY.ContentHash = candidateXX.ContentHash ∧
    ['y'] ∈ storedXY.CategorySlugs ∧ ['y'] ∉ candidateXX.CategorySlugs := by
  refine ⟨by decide, rfl, rfl, rfl, by decide, by decide⟩

/-- C1 amended: `hasChanged` returns true iff title, author or content hash
differs, or the slug lists fail the code's comparison — equal lengths with
every candidate slug occurring among the stored slugs. That comparison is
order-independent (a permutation of the stored slugs alone never triggers a
change), but it is weaker than set-equality on lists with duplicates. -/
theorem hasChanged_characterization (e c : Article) :
    (hasChanged e c = true ↔
      e.Title ≠ c.Title ∨ e.Author ≠ c.Author ∨ e.ContentHash ≠ c.ContentHash ∨
      ¬(e.CategorySlugs.length = c.CategorySlugs.length ∧
        ∀ s ∈ c.CategorySlugs, s ∈ e.CategorySlugs)) ∧
    (e.Title = c.Title → e.Author = c.Author → e.ContentHash = c.ContentHash →
      e.CategorySlugs.Perm c.CategorySlugs → hasChanged e c = false) := by
  constructor
  · rw [← not_iff_not]
    push_neg
    simp only [Bool.not_eq_true, hasChanged_eq_false_iff, sameCategories_eq_true_iff]
  · intro h1 h2 h3 hperm
    rw [hasChanged_eq_false_iff]
    refine ⟨h1, h2, h3, ?_⟩
    rw [sameCategories_eq_true_iff]
    exact ⟨hperm.length_eq, fun s hs => hperm.mem_iff.mpr hs⟩

/-- C1 witness: the amended characterization applied to concrete articles —
the stored slugs `["x","y"]` permuted to `["y","x"]` alone do not count as a
change, and a changed title does. -/
theorem hasChanged_characterization_witness :
    hasChanged storedXY { storedXY with CategorySlugs := [['y'], ['x']] } = false ∧
    hasChanged storedXY { storedXY with Title := ['T'] } = true := by
  constructor
  · exact (hasChanged_characterization storedXY _).2 rfl rfl rfl (by decide)
  · exact (hasChanged_characterization storedXY _).1.mpr (by left; decide)

/-! ### Category URL parsing (C6, C10) -/

theorem extractCategoryInfo_isSome_of_ne_nil (url : GoStr) (hne : url ≠ []) :
    ∃ p, extractCategoryInfo url = some p := by
  cases url with
  | nil => exact absurd rfl hne
  | cons c cs =>
    cases hval : extractCategoryInfo (c :: cs) with
    | some p => exact ⟨p, rfl⟩
    | none =>
      exfalso
      simp only [extractCategoryInfo] at hval
      split at hval <;> simp at hval

/-- C10: `extractCategoryInfo` panics exactly on the empty URL — the Go code
indexes `url[len(url)-1]` before any other check, which is out of bounds only
for the empty string (modelled as `none`); every non-empty URL produces a
`(name, slug)` pair. -/
theorem extractCategoryInfo_total :
    extractCategoryInfo [] = none ∧
    ∀ url : GoStr, url ≠ [] → ∃ p, extractCategoryInfo url = some p :=
  ⟨rfl, extractCategoryInfo_isSome_of_ne_nil⟩

/-- C10 witness: the totality theorem applied to the one-character URL `"a"`. -/
theorem extractCategoryInfo_total_witness :
    ∃ p, extractCategoryInfo ['a'] = some p :=
  extractCategoryInfo_total.2 ['a'] (by decide)

/-- C6 counterexample: the marker `category/` occurs (twice) in this URL, yet
`extractCategoryInfo` returns the `("Unknown", "unknown")` fallback — so
"fallback exactly when the marker is absent" fails. -/
theorem extractCategoryInfo_fallback_with_marker_present :
    countSep 'c' markerRest doubleMarkerURL = 2 ∧
    extractCategoryInfo doubleMarkerURL = some ("Unknown".data, "unknown".data) := by
  exact ⟨by decide, by decide⟩

/-- C6 amended: for a non-empty URL, after stripping one trailing slash, the
fallback is returned exactly when the marker `category/` does not occur exactly
once; with exactly one occurrence the URL splits as `[prefix, slug]` and the
result is the slug together with the name derived from it
(`strings.Title(strings.ReplaceAll(slug, "-", " "))`). -/
theorem extractCategoryInfo_characterization (url : GoStr) (hne : url ≠ []) :
    (countSep 'c' markerRest (stripTrailingSlash url) ≠ 1 →
      extractCategoryInfo url = some ("Unknown".data, "unknown".data)) ∧
    (countSep 'c' markerRest (stripTrailingSlash url) = 1 →
      ∃ pre slug, split 'c' markerRest (stripTrailingSlash url) = [pre, slug] ∧
        extractCategoryInfo url = some (goTitle (replaceAll slug '-' ' '), slug)) := by
  cases url with
  | nil => exact absurd rfl hne
  | cons c cs =>
    have hlen := split_length 'c' markerRest (stripTrailingSlash (c :: cs))
    constructor
    · intro hcount
      have h2 : (split 'c' markerRest (stripTrailingSlash (c :: cs))).length ≠ 2 := by
        omega
      simp [extractCategoryInfo, h2]
    · intro hcount
      have h2 : (split 'c' markerRest (stripTrailingSlash (c :: cs))).length = 2 := by
        omega
      obtain ⟨pre, rest1, hps⟩ :
          ∃ x l, split 'c' markerRest (stripTrailingSlash (c :: cs)) = x :: l := by
        cases hsp : split 'c' markerRest (stripTrailingSlash (c :: cs)) with
        | nil => rw [hsp] at h2; simp at h2
        | cons x l => exact ⟨x, l, rfl⟩
      obtain ⟨slug, hrest⟩ : ∃ y, rest1 = [y] := by
        rw [hps] at h2
        cases rest1 with
        | nil => simp at h2
        | cons y l => cases l with
          | nil => exact ⟨y, rfl⟩
          | cons z l2 => simp at h2
      refine ⟨pre, slug, by rw [hps, hrest], ?_⟩
      simp [extractCategoryInfo, hps, hrest]

/-- C6 witness: the characterization applied to two concrete URLs — a
marker-free URL gets the fallback, and a well-formed category URL yields its
slug and title-cased name. -/
theorem extractCategoryInfo_characterization_witness :
    extractCategoryInfo "https://blueprint.ng/top/".data =
      some ("Unknown".data, "unknown".data) ∧
    ∃ pre slug,
      split 'c' markerRest
          (stripTrailingSlash "https://blueprint.ng/category/world-stage/".data) =
        [pre, slug] ∧
      extractCategoryInfo "https://blueprint.ng/category/world-stage/".data =
        some (goTitle (replaceAll slug '-' ' '), slug) := by
  constructor
  · exact (extractCategoryInfo_characterization _ (by decide)).1 (by decide)
  · exact (extractCategoryInfo_characterization _ (by decide)).2 (by decide)

/-! ### Parent resolution (C4) -/

theorem countSepFuel_single_of_not_mem (c : Char) (fuel : Nat) (s : GoStr)
    (h : c ∉ s) : GoStrings.countSepFuel c [] fuel s = 0 := by
  induction fuel generalizing s with
  | zero => cases s <;> simp [GoStrings.countSepFuel]
  | succ n ih =>
    cases s with
    | nil => simp [GoStrings.countSepFuel]
    | cons a rest =>
      have hca : ¬(c == a) = true := by
        simp only [beq_iff_eq]
        intro hc
        exact h (hc ▸ List.mem_cons_self a rest)
      have hmem : c ∉ rest := fun hm => h (List.mem_cons_of_mem a hm)
      simp [GoStrings.countSepFuel, List.isPrefixOf, hca, ih rest hmem]

/-- A slug without the separator yields a single `split` part. -/
theorem split_singleton_of_not_mem (c : Char) (s : GoStr) (h : c ∉ s) :
    (split c [] s).length = 1 := by
  have h0 : countSep c [] s = 0 := countSepFuel_single_of_not_mem c s.length s h
  rw [split_length, h0]

/-- C4: `findParentID` — (1) a slug with no `/` separator yields no parent
(0); (2) when the lookup of `(websiteID, parentSlug)` finds no row, the result
is no parent (0), with no error possible; (3) when the slug does split into
several segments and the lookup finds a row, the result is that row's id; and
(4) concretely, with `"news"` and `"news/politics"` both stored (in either
order), `"news/politics"` resolves to the parent's id, while with an empty
category table it resolves to the root marker 0 rather than failing. -/
theorem findParentID_spec :
    (∀ (cats : List CategoryRow) (wid : Nat) (slug : GoStr), '/' ∉ slug →
      findParentID cats wid slug = 0) ∧
    (∀ (cats : List CategoryRow) (wid : Nat) (slug : GoStr),
      lookupCategoryID cats wid (joinSep ['/'] (split '/' [] slug).dropLast) = none →
      findParentID cats wid slug = 0) ∧
    (∀ (cats : List CategoryRow) (wid : Nat) (slug : GoStr) (pid : Nat),
      (split '/' [] slug).length ≠ 1 →
      lookupCategoryID cats wid (joinSep ['/'] (split '/' [] slug).dropLast) = some pid →
      findParentID cats wid slug = pid) ∧
    (findParentID
        [⟨5, 1, "News".data, "news".data, [], none⟩,
         ⟨9, 1, "Politics".data, "news/politics".data, [], some 5⟩] 1
        "news/politics".data = 5 ∧
     findParentID
        [⟨9, 1, "Politics".data, "news/politics".data, [], some 5⟩,
         ⟨5, 1, "News".data, "news".data, [], none⟩] 1
        "news/politics".data = 5 ∧
     findParentID [] 1 "news/politics".data = 0) := by
  refine ⟨?_, ?_, ?_, by decide, by decide, by decide⟩
  · intro cats wid slug h
    have h1 : (split '/' [] slug).length = 1 := split_singleton_of_not_mem '/' slug h
    simp [findParentID, h1]
  · intro cats wid slug hnone
    by_cases h1 : (split '/' [] slug).length = 1
    · simp [findParentID, h1]
    · simp [findParentID, h1, hnone]
  · intro cats wid slug pid hne hsome
    simp [findParentID, hne, hsome]

/-- C4 witness: the spec applied at concrete inputs — a separator-free slug,
an empty table, and a table holding the parent row. -/
theorem findParentID_spec_witness :
    findParentID [] 1 "news".data = 0 ∧
    findParentID [] 1 "a/b".data = 0 ∧
    findParentID [⟨7, 1, ['a'], ['a'], [], none⟩] 1 "a/b".data = 7 := by
  refine ⟨?_, ?_, ?_⟩
  · exact findParentID_spec.1 [] 1 "news".data (by decide)
  · exact findParentID_spec.2.1 [] 1 "a/b".data (by decide)
  · exact findParentID_spec.2.2.1 [⟨7, 1, ['a'], ['a'], [], none⟩] 1 "a/b".data 7
      (by decide) (by decide)

/-! ### Retry exhaustion (C3) -/

theorem fetchRetryLoop_not_both_none {E R : Type} (client : Nat → Except E R)
    (delay maxR : Nat) :
    ∀ (rem i : Nat) (lastErr : Option E),
      ¬((fetchRetryLoop client delay maxR i rem lastErr).1.1 = none ∧
        (fetchRetryLoop client delay maxR i rem lastErr).1.2 = none) := by
  intro rem
  induction rem with
  | zero => intro i lastErr h; simp [fetchRetryLoop] at h
  | succ n ih =>
    intro i lastErr h
    rcases hc : client i with e | r
    · simp [fetchRetryLoop, hc] at h
      exact ih (i + 1) _ h
    · simp [fetchRetryLoop, hc] at h

/-- C3: a client failing on every attempt makes `fetchWithRetry` perform
exactly `maxRetries = 3` attempts, each followed by a `retryDelay` sleep (so
consecutive attempts are separated by the fixed delay), and return a nil
response with an error wrapping the last underlying failure and naming the
attempt count; and for every client, it never returns nil response together
with nil error. -/
theorem fetchWithRetry_exhaustion :
    (∀ (E R : Type) (client : Nat → Except E R) (e : Nat → E),
      (∀ i, i < maxRetries → client i = .error (e i)) →
      fetchWithRetry client =
        ((none, some ⟨maxRetries, some (e (maxRetries - 1))⟩),
         [.attempt 0, .sleep retryDelay, .attempt 1, .sleep retryDelay,
          .attempt 2, .sleep retryDelay]) ∧
      countAttempts (fetchWithRetry client).2 = maxRetries) ∧
    (∀ (E R : Type) (client : Nat → Except E R),
      ¬((fetchWithRetry client).1.1 = none ∧ (fetchWithRetry client).1.2 = none)) := by
  constructor
  · intro E R client e h
    have h0 := h 0 (by decide)
    have h1 := h 1 (by decide)
    have h2 := h 2 (by decide)
    have htrace : fetchWithRetry client =
        ((none, some ⟨maxRetries, some (e (maxRetries - 1))⟩),
         [.attempt 0, .sleep retryDelay, .attempt 1, .sleep retryDelay,
          .attempt 2, .sleep retryDelay]) := by
      simp [fetchWithRetry, maxRetries, fetchRetryLoop, h0, h1, h2]
    refine ⟨htrace, ?_⟩
    rw [htrace]
    simp [countAttempts, maxRetries]
  · intro E R client
    exact fetchRetryLoop_not_both_none client retryDelay maxRetries maxRetries 0 none

/-- C3 witness: the exhaustion theorem applied to the client that fails every
attempt with the attempt index as the error. -/
theorem fetchWithRetry_exhaustion_witness :
    fetchWithRetry (fun i => (Except.error i : Except Nat Unit)) =
      ((none, some ⟨maxRetries, some 2⟩),
       [.attempt 0, .sleep retryDelay, .attempt 1, .sleep retryDelay,
        .attempt 2, .sleep retryDelay]) ∧
    ¬((fetchWithRetry (fun _ => (Except.error 0 : Except Nat Unit))).1.1 = none ∧
      (fetchWithRetry (fun _ => (Except.error 0 : Except Nat Unit))).1.2 = none) :=
  ⟨(fetchWithRetry_exhaustion.1 Nat Unit _ (fun i => i) (fun _ _ => rfl)).1,
   fetchWithRetry_exhaustion.2 Nat Unit _⟩

/-! ### Bounded concurrency (C8) -/

theorem poolStep_length {s t : List WorkerPhase} (h : PoolStep s t) :
    t.length = s.length := by
  cases h with
  | at_ pre post ph ph' hp => simp

/-- C8: (1) in the sitemap fan-out, any state reachable from `N` goroutines
all waiting on a capacity-`K` semaphore has at most `K` fetches in flight;
(2) in the article scraper, any pool state reachable from `K` idle workers
has at most `K` fetches in flight — together, a configured limit of `K`
admissions bounds simultaneous fetch operations by `K` under any
interleaving. -/
theorem bounded_concurrency :
    (∀ (K N : Nat) (s : SemState), SemReach K ⟨N, 0, 0⟩ s → s.active ≤ K) ∧
    (∀ (K : Nat) (s : List WorkerPhase),
      PoolReach (List.replicate K WorkerPhase.idle) s → countFetching s ≤ K) := by
  constructor
  · intro K N s h
    induction h with
    | refl => simp
    | step hr hs ih =>
      cases hs with
      | acquire w a d hlt => exact hlt
      | release w a d => simp at ih ⊢; omega
  · intro K s h
    have hlen : s.length = K := by
      induction h with
      | refl => simp
      | step hr hs ih => rw [poolStep_length hs, ih]
    calc countFetching s ≤ s.length := List.length_filter_le _ s
      _ = K := hlen

/-- C8 witness: the bound applied to a concrete reachable state on each side —
one goroutine holding the capacity-3 semaphore, and a 3-worker pool with its
first worker fetching. -/
theorem bounded_concurrency_witness :
    (SemState.mk 220 1 0).active ≤ 3 ∧
    countFetching [WorkerPhase.fetching, WorkerPhase.idle, WorkerPhase.idle] ≤ 3 := by
  constructor
  · exact bounded_concurrency.1 3 221 ⟨220, 1, 0⟩
      (SemReach.step SemReach.refl (SemStep.acquire 220 0 0 (by decide)))
  · exact bounded_concurrency.2 3 _
      (PoolReach.step PoolReach.refl
        (PoolStep.at_ [] [WorkerPhase.idle, WorkerPhase.idle]
          WorkerPhase.idle WorkerPhase.fetching PhaseStep.startFetch))

/-! ### Category/slug alignment in ScrapeArticle (C9) -/

theorem appendAnchor_eq (acc : List GoStr × List GoStr) (a : Anchor) :
    appendAnchor acc a =
      match classifyAnchor a with
      | none => acc
      | some p => (acc.1 ++ [p.1], acc.2 ++ [p.2]) := by
  cases hh : a.href with
  | none => simp [appendAnchor, classifyAnchor, hh]
  | some href =>
    by_cases h : (GoStrings.split '/' articleMarkerRest href).length = 2
    · simp [appendAnchor, classifyAnchor, hh, h]
    · simp [appendAnchor, classifyAnchor, hh, h]

theorem extractArticleCategories_foldl (anchors : List Anchor) :
    ∀ acc : List GoStr × List GoStr,
      anchors.foldl appendAnchor acc =
        (acc.1 ++ (anchors.filterMap classifyAnchor).map Prod.fst,
         acc.2 ++ (anchors.filterMap classifyAnchor).map Prod.snd) := by
  induction anchors with
  | nil => intro acc; simp
  | cons a rest ih =>
    intro acc
    rw [List.foldl_cons, ih, appendAnchor_eq]
    cases hc : classifyAnchor a with
    | none => simp [List.filterMap_cons, hc]
    | some p => simp [List.filterMap_cons, hc]

/-- C9: the two lists built by the category loop of `ScrapeArticle` are the
first and second projections of one per-anchor classification, hence have
equal length and are index-aligned — each anchor contributes to both lists or
to neither — so indexing `Categories[i]` at any index `i` below
`CategorySlugs`' length (as `SaveArticle`'s link loop does) is in range. -/
theorem scrapeArticle_categories_aligned (anchors : List Anchor) :
    extractArticleCategories anchors =
      ((anchors.filterMap classifyAnchor).map Prod.fst,
       (anchors.filterMap classifyAnchor).map Prod.snd) ∧
    (extractArticleCategories anchors).1.length =
      (extractArticleCategories anchors).2.length ∧
    ∀ i, i < (extractArticleCategories anchors).2.length →
      ((extractArticleCategories anchors).1.get? i).isSome := by
  have hfold := extractArticleCategories_foldl anchors ([], [])
  have heq : extractArticleCategories anchors =
      ((anchors.filterMap classifyAnchor).map Prod.fst,
       (anchors.filterMap classifyAnchor).map Prod.snd) := by
    rw [extractArticleCategories, hfold]; simp
  refine ⟨heq, ?_, ?_⟩
  · rw [heq]; simp
  · intro i hi
    rw [heq] at hi ⊢
    simp only [List.length_map] at hi
    simp [List.get?_eq_getElem?, List.getElem?_map, List.getElem?_eq_getElem hi]

/-- C9 witness: the alignment theorem applied to a concrete anchor list — one
anchor with a category href, one without an href, one with a non-category
href. -/
theorem scrapeArticle_categories_aligned_witness :
    (extractArticleCategories
        [⟨"Security".data, some "https://blueprint.ng/category/security/".data⟩,
         ⟨"NoHref".data, none⟩,
         ⟨"Home".data, some "https://blueprint.ng/home/".data⟩]).1.length =
      (extractArticleCategories
        [⟨"Security".data, some "https://blueprint.ng/category/security/".data⟩,
         ⟨"NoHref".data, none⟩,
         ⟨"Home".data, some "https://blueprint.ng/home/".data⟩]).2.length ∧
    ((extractArticleCategories
        [⟨"Security".data, some "https://blueprint.ng/category/security/".data⟩,
         ⟨"NoHref".data, none⟩,
         ⟨"Home".data, some "https://blueprint.ng/home/".data⟩]).1.get? 0).isSome := by
  constructor
  · exact (scrapeArticle_categories_aligned _).2.1
  · exact (scrapeArticle_categories_aligned _).2.2 0 (by decide)

/-! ### Idempotent second save (C2) -/

/-- C2 counterexample: a second save whose extraction has the same title,
author, content hash and category-slug **set** as stored (`{x}` both times,
via the slug lists `["x"]` stored and `["x","x"]` extracted) nevertheless
performs the upsert and deletes and re-inserts a category link — the claimed
"no write, zero link churn" fails for set-equal (but not length-equal) slug
lists. -/
theorem saveArticle_second_save_same_set_churns :
    resightRow.title = resightArticle.Title ∧
    resightRow.author = resightArticle.Author ∧
    resightRow.contentHash = resightArticle.Content ∧
    (existingSlugs resightDB resightRow.id).toFinset =
      resightArticle.CategorySlugs.toFinset ∧
    (SaveArticle (fun s => s) 1 100 (fun _ => false) resightDB
        resightArticle).2.upsertPerformed = true ∧
    (SaveArticle (fun s => s) 1 100 (fun _ => false) resightDB
        resightArticle).2.linksDeleted = 1 ∧
    (SaveArticle (fun s => s) 1 100 (fun _ => false) resightDB
        resightArticle).2.linksInserted = 1 := by
  refine ⟨rfl, rfl, rfl, by decide, by decide, by decide, by decide⟩

/-- C2 amended: when a stored row exists for the url (uniquely), and the new
extraction agrees on title, author and content hash, and its slug list is a
permutation of the stored slug list (same multiset — in particular the same
list in any order), the second `SaveArticle` performs no write at all: the
store is returned unchanged, the upsert is skipped, zero links are deleted or
inserted, and exactly one row for the url remains. -/
theorem saveArticle_unchanged_is_noop
    (hashFn : GoStr → GoStr) (cfgID now : Nat) (faults : Nat → Bool)
    (db : DB) (a : Article) (row : ArticleRow)
    (hfind : db.articles.find? (fun r => r.url == a.URL) = some row)
    (huniq : (db.articles.filter (fun r => r.url == a.URL)).length = 1)
    (ht : row.title = a.Title) (hau : row.author = a.Author)
    (hh : row.contentHash = hashFn a.Content)
    (hperm : (existingSlugs db row.id).Perm a.CategorySlugs) :
    SaveArticle hashFn cfgID now faults db a = (db, noEffects) ∧
    ((SaveArticle hashFn cfgID now faults db a).1.articles.filter
        (fun r => r.url == a.URL)).length = 1 := by
  have hchanged : hasChanged
      { ID := row.id, Title := row.title, Categories := [], Author := row.author,
        PublishDate := 0, UpdatedDate := 0, Content := row.content, URL := [],
        CategoryIDs := [], CategorySlugs := existingSlugs db row.id,
        ContentHash := row.contentHash }
      { a with ContentHash := hashFn a.Content } = false := by
    rw [hasChanged_eq_false_iff]
    refine ⟨ht, hau, hh, ?_⟩
    rw [sameCategories_eq_true_iff]
    exact ⟨hperm.length_eq, fun s hs => hperm.mem_iff.mpr hs⟩
  have hmain : SaveArticle hashFn cfgID now faults db a = (db, noEffects) := by
    simp only [SaveArticle, hfind, hchanged]
    simp
  exact ⟨hmain, by rw [hmain]; exact huniq⟩

/-- C2 witness: the no-op theorem applied to the concrete store — re-saving
with the exact stored slug list `["x"]` changes nothing and keeps one row. -/
theorem saveArticle_unchanged_is_noop_witness :
    SaveArticle (fun s => s) 1 100 (fun _ => false) resightDB
        { resightArticle with CategorySlugs := [['x']] } = (resightDB, noEffects) :=
  (saveArticle_unchanged_is_noop (fun s => s) 1 100 (fun _ => false) resightDB
      { resightArticle with CategorySlugs := [['x']] } resightRow
      (by decide) (by decide) rfl rfl rfl (by decide)).1

/-! ### Best-effort partial-row failure (C5) -/

theorem insertLinks_mono (cats : List CategoryRow) (cfgID aid : Nat)
    (faults : Nat → Bool) :
    ∀ (slugs : List GoStr) (i : Nat) (links : List (Nat × Nat)) (l : Nat × Nat),
      l ∈ links → l ∈ (insertLinks cats cfgID aid faults i slugs links).1 := by
  intro slugs
  induction slugs with
  | nil =>
    intro i links l hl
    simpa [insertLinks] using hl
  | cons s rest ih =>
    intro i links l hl
    simp only [insertLinks]
    by_cases hf : faults i
    · rw [if_pos hf]
      rcases hrec : insertLinks cats cfgID aid faults (i + 1) rest links with ⟨l1, n1, sk1⟩
      have hm := ih (i + 1) links l hl
      rw [hrec] at hm
      simpa using hm
    · rw [if_neg hf]
      cases hlk : lookupCategoryID cats cfgID s with
      | none =>
        rcases hrec : insertLinks cats cfgID aid faults (i + 1) rest links with ⟨l1, n1, sk1⟩
        have hm := ih (i + 1) links l hl
        rw [hrec] at hm
        simpa using hm
      | some cid =>
        dsimp only
        by_cases hmem : (aid, cid) ∈ links
        · rw [if_pos hmem]
          exact ih (i + 1) links l hl
        · rw [if_neg hmem]
          rcases hrec : insertLinks cats cfgID aid faults (i + 1) rest (links ++ [(aid, cid)])
            with ⟨l1, n1, sk1⟩
          have hm := ih (i + 1) (links ++ [(aid, cid)]) l (List.mem_append_left _ hl)
          rw [hrec] at hm
          simpa using hm

theorem insertLinks_mem (cats : List CategoryRow) (cfgID aid : Nat)
    (faults : Nat → Bool) :
    ∀ (slugs : List GoStr) (i j : Nat) (slug : GoStr) (cid : Nat)
      (links : List (Nat × Nat)),
      slugs.get? j = some slug → faults (i + j) = false →
      lookupCategoryID cats cfgID slug = some cid →
      (aid, cid) ∈ (insertLinks cats cfgID aid faults i slugs links).1 := by
  intro slugs
  induction slugs with
  | nil =>
    intro i j slug cid links hget _ _
    simp at hget
  | cons s rest ih =>
    intro i j slug cid links hget hfault hlk
    cases j with
    | zero =>
      simp only [List.get?] at hget
      injection hget with hget
      subst hget
      have hf : ¬faults i = true := by simpa using hfault
      simp only [insertLinks]
      rw [if_neg hf, hlk]
      dsimp only
      by_cases hmem : (aid, cid) ∈ links
      · rw [if_pos hmem]
        exact insertLinks_mono cats cfgID aid faults rest (i + 1) links _ hmem
      · rw [if_neg hmem]
        rcases hrec : insertLinks cats cfgID aid faults (i + 1) rest (links ++ [(aid, cid)])
          with ⟨l1, n1, sk1⟩
        have hm := insertLinks_mono cats cfgID aid faults rest (i + 1)
          (links ++ [(aid, cid)]) (aid, cid) (by simp)
        rw [hrec] at hm
        simpa using hm
    | succ j' =>
      simp only [List.get?] at hget
      have hfault' : faults ((i + 1) + j') = false := by
        have hi : i + (j' + 1) = (i + 1) + j' := by omega
        rw [← hi]; exact hfault
      simp only [insertLinks]
      by_cases hf : faults i
      · rw [if_pos hf]
        rcases hrec : insertLinks cats cfgID aid faults (i + 1) rest links with ⟨l1, n1, sk1⟩
        have hm := ih (i + 1) j' slug cid links hget hfault' hlk
        rw [hrec] at hm
        simpa using hm
      · rw [if_neg hf]
        cases hlk2 : lookupCategoryID cats cfgID s with
        | none =>
          rcases hrec : insertLinks cats cfgID aid faults (i + 1) rest links with ⟨l1, n1, sk1⟩
          have hm := ih (i + 1) j' slug cid links hget hfault' hlk
          rw [hrec] at hm
          simpa using hm
        | some cid2 =>
          dsimp only
          by_cases hmem : (aid, cid2) ∈ links
          · rw [if_pos hmem]
            exact ih (i + 1) j' slug cid links hget hfault' hlk
          · rw [if_neg hmem]
            rcases hrec : insertLinks cats cfgID aid faults (i + 1) rest (links ++ [(aid, cid2)])
              with ⟨l1, n1, sk1⟩
            have hm := ih (i + 1) j' slug cid (links ++ [(aid, cid2)]) hget hfault' hlk
            rw [hrec] at hm
            simpa using hm

theorem scrapeCategoriesLoop_fault_skipped (cfgID : Nat) :
    ∀ (xs ys : List (GoStr × Bool)) (loc : GoStr) (db : DB), loc ≠ [] →
      scrapeCategoriesLoop cfgID (xs ++ (loc, true) :: ys) db =
        scrapeCategoriesLoop cfgID (xs ++ ys) db := by
  intro xs
  induction xs with
  | nil =>
    intro ys loc db hne
    obtain ⟨⟨name, slug⟩, hp⟩ := extractCategoryInfo_isSome_of_ne_nil loc hne
    simp [scrapeCategoriesLoop, hp]
  | cons x rest ih =>
    intro ys loc db hne
    rcases x with ⟨l, f⟩
    simp only [List.cons_append, scrapeCategoriesLoop]
    cases hx : extractCategoryInfo l with
    | none => rfl
    | some p =>
      rcases p with ⟨n2, s2⟩
      dsimp only
      by_cases hf : f
      · rw [if_pos hf, if_pos hf]
        exact ih ys loc db hne
      · rw [if_neg hf, if_neg hf]
        exact ih ys loc _ hne

theorem scrapeCategoriesLoop_total (cfgID : Nat) :
    ∀ (entries : List (GoStr × Bool)) (db : DB),
      (∀ e ∈ entries, (e : GoStr × Bool).1 ≠ []) →
      ∃ db', scrapeCategoriesLoop cfgID entries db = some db' := by
  intro entries
  induction entries with
  | nil => intro db _; exact ⟨db, rfl⟩
  | cons x rest ih =>
    intro db h
    rcases x with ⟨l, f⟩
    obtain ⟨⟨n2, s2⟩, hp⟩ :=
      extractCategoryInfo_isSome_of_ne_nil l (h (l, f) (List.mem_cons_self _ _))
    simp only [scrapeCategoriesLoop, hp]
    by_cases hf : f
    · rw [if_pos hf]
      exact ih db (fun e he => h e (List.mem_cons_of_mem _ he))
    · rw [if_neg hf]
      exact ih _ (fun e he => h e (List.mem_cons_of_mem _ he))

theorem saveArticle_new_article_commits
    (hashFn : GoStr → GoStr) (cfgID now : Nat) (faults : Nat → Bool)
    (db : DB) (a : Article)
    (hfind : db.articles.find? (fun r => r.url == a.URL) = none) :
    (SaveArticle hashFn cfgID now faults db a).2.upsertPerformed = true ∧
    (∃ r, r ∈ (SaveArticle hashFn cfgID now faults db a).1.articles ∧
        r.id = db.nextID ∧ r.url = a.URL ∧ r.title = a.Title) ∧
    (∀ j slug cid, a.CategorySlugs.get? j = some slug → faults j = false →
      lookupCategoryID db.categories cfgID slug = some cid →
      (db.nextID, cid) ∈ (SaveArticle hashFn cfgID now faults db a).1.links) := by
  refine ⟨?_, ?_, ?_⟩
  · simp [SaveArticle, upsertArticle, hfind]
  · refine ⟨{ id := db.nextID, websiteID := cfgID, title := a.Title,
              content := a.Content, contentHash := hashFn a.Content,
              author := a.Author, publishDate := a.PublishDate,
              lastUpdated := a.UpdatedDate, url := a.URL,
              createdAt := now }, ?_, rfl, rfl, rfl⟩
    simp [SaveArticle, upsertArticle, hfind]
  · intro j slug cid hget hfj hlk
    simp only [SaveArticle, upsertArticle, hfind]
    have hfj' : faults (0 + j) = false := by simpa using hfj
    simpa using insertLinks_mem db.categories cfgID db.nextID faults
      a.CategorySlugs 0 j slug cid _ hget hfj' hlk

/-- C5: best-effort within one batch — (1) in `ScrapeCategories`, a row whose
parent lookup or insert errors is skipped and the batch result is exactly that
of the remaining rows; (2) a batch of non-empty urls always reaches the commit
(no abort from row-level failures); (3) in `SaveArticle`'s link loop, a link
whose lookup or insert errors is skipped while the article row is still
committed and every non-failing resolvable slug is still linked — a single
failing row never aborts the batch or rolls back sibling rows. -/
theorem partial_row_failure_best_effort :
    (∀ (cfgID : Nat) (xs ys : List (GoStr × Bool)) (loc : GoStr) (db : DB),
      loc ≠ [] →
      scrapeCategories cfgID (xs ++ (loc, true) :: ys) db =
        scrapeCategories cfgID (xs ++ ys) db) ∧
    (∀ (cfgID : Nat) (entries : List (GoStr × Bool)) (db : DB),
      (∀ e ∈ entries, (e : GoStr × Bool).1 ≠ []) →
      ∃ db', scrapeCategories cfgID entries db = some db') ∧
    (∀ (hashFn : GoStr → GoStr) (cfgID now : Nat) (faults : Nat → Bool)
       (db : DB) (a : Article),
      db.articles.find? (fun r => r.url == a.URL) = none →
      (SaveArticle hashFn cfgID now faults db a).2.upsertPerformed = true ∧
      (∃ r, r ∈ (SaveArticle hashFn cfgID now faults db a).1.articles ∧
          r.id = db.nextID ∧ r.url = a.URL ∧ r.title = a.Title) ∧
      (∀ j slug cid, a.CategorySlugs.get? j = some slug → faults j = false →
        lookupCategoryID db.categories cfgID slug = some cid →
        (db.nextID, cid) ∈ (SaveArticle hashFn cfgID now faults db a).1.links)) :=
  ⟨fun cfgID xs ys loc db hne => scrapeCategoriesLoop_fault_skipped cfgID xs ys loc db hne,
   fun cfgID entries db h => scrapeCategoriesLoop_total cfgID entries db h,
   fun hashFn cfgID now faults db a hfind =>
     saveArticle_new_article_commits hashFn cfgID now faults db a hfind⟩

/-- C5 witness: the best-effort theorem applied concretely — a one-row batch
whose single row fails equals the empty batch; an all-good one-row batch
commits; and a new article saved with every link operation failing still has
its upsert performed. -/
theorem partial_row_failure_best_effort_witness :
    scrapeCategories 1 [(['a'], true)] ⟨[], [], [], 1⟩ =
      scrapeCategories 1 [] ⟨[], [], [], 1⟩ ∧
    (∃ db', scrapeCategories 1 [(['a'], false)] ⟨[], [], [], 1⟩ = some db') ∧
    (SaveArticle (fun s => s) 1 0 (fun _ => true) ⟨[], [], [], 1⟩
        resightArticle).2.upsertPerformed = true :=
  ⟨partial_row_failure_best_effort.1 1 [] [] ['a'] ⟨[], [], [], 1⟩ (by decide),
   partial_row_failure_best_effort.2.1 1 [(['a'], false)] ⟨[], [], [], 1⟩ (by decide),
   (partial_row_failure_best_effort.2.2 (fun s => s) 1 0 (fun _ => true)
      ⟨[], [], [], 1⟩ resightArticle rfl).1⟩

/-! ### Sitemap upsert frame (C7) -/

theorem upsertSitemapRow_frame (now wid sc : Nat) (lm : Option Nat) (loc : GoStr)
    (table : List SitemapRow) (i : Nat) (r : SitemapRow)
    (hr : table.get? i = some r) :
    ∃ r', (upsertSitemapRow now wid sc lm loc table).get? i = some r' ∧
      r'.websiteID = r.websiteID ∧ r'.articleURL = r.articleURL ∧
      r'.lastMod = r.lastMod ∧ r'.createdAt = r.createdAt := by
  unfold upsertSitemapRow
  by_cases hc : table.any (fun x => x.websiteID == wid && x.articleURL == loc)
  · rw [if_pos hc, List.get?_map, hr]
    dsimp only [Option.map]
    by_cases hm : (r.websiteID == wid && r.articleURL == loc) = true
    · rw [if_pos hm]
      exact ⟨_, rfl, rfl, rfl, rfl, rfl⟩
    · rw [if_neg hm]
      exact ⟨r, rfl, rfl, rfl, rfl, rfl⟩
  · rw [if_neg hc]
    obtain ⟨hi, -⟩ := List.get?_eq_some.mp hr
    exact ⟨r, by rw [List.get?_append hi, hr], rfl, rfl, rfl, rfl⟩

theorem insertURLBatch_frame (parseFn : GoStr → Option Nat) (now wid sc : Nat) :
    ∀ (batch : List URLEntry) (table : List SitemapRow) (i : Nat) (r : SitemapRow),
      table.get? i = some r →
      ∃ r', (insertURLBatch parseFn now wid sc batch table).get? i = some r' ∧
        r'.websiteID = r.websiteID ∧ r'.articleURL = r.articleURL ∧
        r'.lastMod = r.lastMod ∧ r'.createdAt = r.createdAt := by
  intro batch
  induction batch with
  | nil =>
    intro table i r hr
    exact ⟨r, hr, rfl, rfl, rfl, rfl⟩
  | cons e rest ih =>
    intro table i r hr
    obtain ⟨r1, hr1, h1, h2, h3, h4⟩ :=
      upsertSitemapRow_frame now wid sc (lastModOf parseFn e) e.loc table i r hr
    obtain ⟨r2, hr2, g1, g2, g3, g4⟩ := ih _ i r1 hr1
    refine ⟨r2, ?_, g1.trans h1, g2.trans h2, g3.trans h3, g4.trans h4⟩
    simpa [insertURLBatch] using hr2

theorem upsertSitemapRow_resight (now wid sc : Nat) (lm : Option Nat) (loc : GoStr)
    (table : List SitemapRow) (i : Nat) (r : SitemapRow)
    (hr : table.get? i = some r) (hw : r.websiteID = wid) (hu : r.articleURL = loc)
    (hsc : r.statusCode = sc) (hv : r.isValid = true) :
    (upsertSitemapRow now wid sc lm loc table).get? i =
      some { r with lastChecked := now } := by
  have hc : table.any (fun x => x.websiteID == wid && x.articleURL == loc) = true :=
    List.any_eq_true.mpr ⟨r, List.get?_mem hr, by simp [hw, hu]⟩
  unfold upsertSitemapRow
  have hm : (r.websiteID == wid && r.articleURL == loc) = true := by simp [hw, hu]
  rw [if_pos hc, List.get?_map, hr]
  dsimp only [Option.map]
  rw [if_pos hm]
  obtain ⟨w, u, l, c, v, s, lc⟩ := r
  dsimp only at hsc hv ⊢
  rw [hsc, hv]

theorem upsertSitemapRow_length (now wid sc : Nat) (lm : Option Nat) (loc : GoStr)
    (table : List SitemapRow) :
    table.length ≤ (upsertSitemapRow now wid sc lm loc table).length := by
  unfold upsertSitemapRow
  by_cases hc : table.any (fun x => x.websiteID == wid && x.articleURL == loc)
  · rw [if_pos hc]; simp
  · rw [if_neg hc]; simp

/-- C7: the `(website_id, article_url)` upsert of `insertURLBatch` — (1) every
stored row survives any batch at its position with `website_id`,
`article_url`, `last_mod` and `created_at` unchanged (only `last_checked`,
`status_code`, `is_valid` can change, and no row is ever deleted); (2) a
re-sight with identical status (`status_code` equal, row valid) changes
nothing but `last_checked = NOW()`; (3) the table never shrinks; and (4) the
3-entry scenario: two new urls and one already-stored url with identical
status yield exactly 3 rows, the stored one advancing only `last_checked`. -/
theorem insertURLBatch_upsert_frame :
    (∀ (parseFn : GoStr → Option Nat) (now wid sc : Nat) (batch : List URLEntry)
       (table : List SitemapRow) (i : Nat) (r : SitemapRow),
      table.get? i = some r →
      ∃ r', (insertURLBatch parseFn now wid sc batch table).get? i = some r' ∧
        r'.websiteID = r.websiteID ∧ r'.articleURL = r.articleURL ∧
        r'.lastMod = r.lastMod ∧ r'.createdAt = r.createdAt) ∧
    (∀ (now wid sc : Nat) (lm : Option Nat) (loc : GoStr) (table : List SitemapRow)
       (i : Nat) (r : SitemapRow),
      table.get? i = some r → r.websiteID = wid → r.articleURL = loc →
      r.statusCode = sc → r.isValid = true →
      (upsertSitemapRow now wid sc lm loc table).get? i =
        some { r with lastChecked := now }) ∧
    (∀ (parseFn : GoStr → Option Nat) (now wid sc : Nat) (batch : List URLEntry)
       (table : List SitemapRow),
      table.length ≤ (insertURLBatch parseFn now wid sc batch table).length) ∧
    ((insertURLBatch (fun _ => none) 100 1 200
        [⟨"u0".data, []⟩, ⟨"u1".data, []⟩, ⟨"u2".data, []⟩]
        [{ sitemapRow0 with lastChecked := 60 }]).length = 3 ∧
      (insertURLBatch (fun _ => none) 100 1 200
        [⟨"u0".data, []⟩, ⟨"u1".data, []⟩, ⟨"u2".data, []⟩]
        [{ sitemapRow0 with lastChecked := 60 }]).get? 0 = some sitemapRow0) := by
  refine ⟨insertURLBatch_frame, upsertSitemapRow_resight, ?_, by decide, by decide⟩
  intro parseFn now wid sc batch
  induction batch with
  | nil => intro table; simp [insertURLBatch]
  | cons e rest ih =>
    intro table
    calc table.length
        ≤ (upsertSitemapRow now wid sc (lastModOf parseFn e) e.loc table).length :=
          upsertSitemapRow_length now wid sc (lastModOf parseFn e) e.loc table
      _ ≤ _ := by simpa [insertURLBatch] using ih _

/-- C7 witness: the frame theorem applied concretely — the stored `"u0"` row
keeps its `last_mod` and `created_at` through a batch, a same-status re-sight
only advances `last_checked`, and the one-row table does not shrink. -/
theorem insertURLBatch_upsert_frame_witness :
    (∃ r', (insertURLBatch (fun _ => none) 100 1 200 [⟨"u1".data, []⟩]
        [sitemapRow0]).get? 0 = some r' ∧
      r'.websiteID = sitemapRow0.websiteID ∧
      r'.articleURL = sitemapRow0.articleURL ∧
      r'.lastMod = sitemapRow0.lastMod ∧ r'.createdAt = sitemapRow0.createdAt) ∧
    (upsertSitemapRow 100 1 200 none "u0".data
        [{ sitemapRow0 with lastChecked := 60 }]).get? 0 = some sitemapRow0 ∧
    [sitemapRow0].length ≤ (insertURLBatch (fun _ => none) 100 1 200
        [⟨"u1".data, []⟩] [sitemapRow0]).length := by
  refine ⟨?_, ?_, ?_⟩
  · exact insertURLBatch_upsert_frame.1 (fun _ => none) 100 1 200
      [⟨"u1".data, []⟩] [sitemapRow0] 0 sitemapRow0 rfl
  · exact insertURLBatch_upsert_frame.2.1 100 1 200 none "u0".data
      [{ sitemapRow0 with lastChecked := 60 }] 0 { sitemapRow0 with lastChecked := 60 }
      rfl rfl rfl rfl rfl
  · exact insertURLBatch_upsert_frame.2.2.1 (fun _ => none) 100 1 200
      [⟨"u1".data, []⟩] [sitemapRow0]

end Scraper
